import Mathlib

/-!
Verification of the live-session signaling core of the Digi_Kul teachers
portal (`app.py`): the room registry (`active_sessions`), the participant
tracker (`session_participants`), the WebSocket event handlers
(`join_session`, `leave_session`, `webrtc_offer`, `webrtc_answer`,
`ice_candidate`, `chat_message`) and the deferred `cleanup_session` timer.

Python dictionaries are embedded as association lists with distinct keys in
every reachable state; `setk` models `d[k] = v` (replace in place, append if
new), `delk` models `del d[k]` guarded by `k in d`, `getk` models `d.get(k)`.
Optional payload fields are `Option String`; Python truthiness of a string
field (`if not x`) is the `truthy` test below.  The `threading.Timer(5.0,
lambda: cleanup_session(sid))` call is embedded as appending `(sid, 5)` to a
list of pending timers; a separate `Op.fire` step models a timer firing.
-/

namespace DigiKul

/-- One entry of `session_participants[sid]`: the per-user connection
metadata dict built in `handle_join_session`. -/
structure Participant where
  user_type : String
  user_name : String
  socket_id : String
  joined_at : String
deriving DecidableEq, Repr

/-- One entry of `active_sessions`: the dict built in `start_live_session`. -/
structure SessionRec where
  lecture_id : String
  teacher_id : String
  teacher_name : String
  lecture_title : String
  started_at : String
  status : String
  participants : List Participant
  recordings : List String
deriving DecidableEq, Repr

/-- `d.get(k)` on an association-list dict. -/
def getk {α : Type} (m : List (String × α)) (k : String) : Option α :=
  match m with
  | [] => none
  | (k', v) :: rest => if k' = k then some v else getk rest k

/-- `d[k] = v`: replace the entry in place if the key exists (Python dicts
keep the insertion position), append otherwise. -/
def setk {α : Type} (m : List (String × α)) (k : String) (v : α) :
    List (String × α) :=
  match m with
  | [] => [(k, v)]
  | (k', v') :: rest =>
    if k' = k then (k, v) :: rest else (k', v') :: setk rest k v

/-- `del d[k]` (guarded by `k in d`, so deleting an absent key is a no-op). -/
def delk {α : Type} (m : List (String × α)) (k : String) :
    List (String × α) :=
  m.filter (fun p => p.1 ≠ k)

/-- Python membership test `k in d`. -/
def HasKey {α : Type} (m : List (String × α)) (k : String) : Prop :=
  ∃ v, (k, v) ∈ m

/-- Python truthiness of an optional string field: `None` and `""` are falsy. -/
def truthy : Option String → Bool
  | none => false
  | some s => s ≠ ""

/-- Python `a or b` on two optional string values: the first operand if it is
truthy, otherwise the second. -/
def pyOr (a b : Option String) : Option String :=
  match a with
  | none => b
  | some s => if s = "" then b else some s

/-- Lookup through an optional key: `None not in d` is false, matching
Python, since dict keys here are always strings. -/
def optKey {α : Type} (k : Option String) (m : List (String × α)) : Option α :=
  match k with
  | none => none
  | some s => getk m s

/-- The global mutable state of `app.py`: the room registry
`active_sessions`, the participant tracker `session_participants`, and the
cleanup timers currently scheduled (session id, delay in seconds). -/
structure ServerState where
  active_sessions : List (String × SessionRec)
  session_participants : List (String × List (String × Participant))
  pending_cleanups : List (String × Nat)
deriving DecidableEq, Repr

/-- The connection context of the socket event's sender: the Flask session
cookie contents (`user_id`, `user_type`, `user_name` if authenticated) and
the transport handle `request.sid`. -/
structure Conn where
  auth : Option (String × String × String)
  sid : String
deriving DecidableEq, Repr

/-- `session.get('user_id') if 'user_id' in session else None`. -/
def authUserId (c : Conn) : Option String :=
  match c.auth with
  | none => none
  | some (uid, _, _) => some uid

/-- Payload of `join_session`. -/
structure JoinData where
  session_id : Option String
deriving DecidableEq, Repr

/-- Payload of `leave_session`. -/
structure LeaveData where
  session_id : Option String
  user_id : Option String
deriving DecidableEq, Repr

/-- Payload of the three relay events; `body` is the opaque
offer / answer / candidate field. -/
structure RelayData where
  session_id : Option String
  target_user_id : Option String
  from_user_id : Option String
  body : Option String
deriving DecidableEq, Repr

/-- Payload of `chat_message` (forwarded verbatim). -/
structure ChatData where
  session_id : Option String
  body : String
deriving DecidableEq, Repr

/-- Outbound event payloads, one constructor per emitted shape. -/
inductive Payload where
  | errorMsg (message : String)
  | userJoined (user_id user_name user_type : String) (participants_count : Nat)
  | sessionInfo (session_id : String) (participants : List Participant)
      (participants_count : Nat)
  | userLeft (user_id : String) (participants_count : Nat)
  | sessionEnded
  | rtc (from_user_id : Option String) (body : Option String)
  | chat (d : ChatData)
  | liveSessionStarted (session_id lecture_id lecture_title teacher_name
      join_url : String)
deriving DecidableEq, Repr

/-- One `emit` call: either to the requesting connection (no room argument)
or to a room (a session id, a socket id, or the `students` room), with the
`include_self` flag. -/
inductive Emission where
  | toSelf (event : String) (p : Payload)
  | toRoom (roomName : String) (includeSelf : Bool) (event : String)
      (p : Payload)
deriving DecidableEq, Repr

/-- `cleanup_session` from `app.py` lines 99-104: drops the session's
registry entry and tracker entry, each guarded by a membership test. -/
def cleanup_session (session_id : String) (st : ServerState) : ServerState :=
  { st with
    active_sessions := delk st.active_sessions session_id,
    session_participants := delk st.session_participants session_id }

/-- The registry mutation of `start_live_session` (line 804): install the
fresh session record with status `active` and empty participant and
recording lists. -/
def start_live_session (st : ServerState) (session_id lecture_id teacher_id
    teacher_name lecture_title started_at : String) : ServerState :=
  { st with
    active_sessions := setk st.active_sessions session_id
      ⟨lecture_id, teacher_id, teacher_name, lecture_title, started_at,
       "active", [], []⟩ }

/-- `handle_join_session` (lines 1098-1137).  `t` is the value of
`datetime.now().isoformat()` at the event. -/
def handle_join_session (st : ServerState) (c : Conn) (t : String)
    (d : JoinData) : ServerState × List Emission :=
  match c.auth with
  | none => (st, [.toSelf "error" (.errorMsg "Authentication required")])
  | some (uid, utype, uname) =>
    match optKey d.session_id st.active_sessions with
    | none => (st, [.toSelf "error" (.errorMsg "Session not found")])
    | some _ =>
      let sid := d.session_id.getD ""
      let pm := (getk st.session_participants sid).getD []
      let pm' := setk pm uid ⟨utype, uname, c.sid, t⟩
      ({ st with session_participants := setk st.session_participants sid pm' },
       [.toRoom sid false "user_joined" (.userJoined uid uname utype pm'.length),
        .toSelf "session_info"
          (.sessionInfo sid (pm'.map Prod.snd) pm'.length)])

/-- `handle_leave_session` (lines 1139-1160): resolve the user id from the
payload or the cookie session, silently return unless both ids are truthy and
the membership exists, otherwise delete it, broadcast `user_left`, and when
the count reaches zero mark the registry entry `ended`, broadcast
`session_ended` and schedule `cleanup_session` after 5 seconds. -/
def handle_leave_session (st : ServerState) (c : Conn) (d : LeaveData) :
    ServerState × List Emission :=
  let sidOpt := d.session_id
  let uidOpt := pyOr d.user_id (authUserId c)
  if truthy sidOpt && truthy uidOpt then
    let sid := sidOpt.getD ""
    let uid := uidOpt.getD ""
    match getk st.session_participants sid with
    | none => (st, [])
    | some pm =>
      match getk pm uid with
      | none => (st, [])
      | some _ =>
        let pm' := delk pm uid
        let n := pm'.length
        let st1 := { st with
          session_participants := setk st.session_participants sid pm' }
        let leftMsg := Emission.toRoom sid true "user_left" (.userLeft uid n)
        if n = 0 then
          match getk st1.active_sessions sid with
          | some rec =>
            ({ st1 with
               active_sessions := setk st1.active_sessions sid
                 { rec with status := "ended" },
               pending_cleanups := st1.pending_cleanups ++ [(sid, 5)] },
             [leftMsg, .toRoom sid true "session_ended" .sessionEnded])
          | none => (st1, [leftMsg])
        else (st1, [leftMsg])
  else (st, [])

/-- The shared body of the three relay handlers (lines 1162-1214, which are
identical except for the event name and the payload field): on a falsy
session id or target id or an unregistered session, report
`Invalid signaling data`; on a registered session with an absent target,
report `Target not found`; otherwise forward
`{from_user_id, body}` to the target's socket id. -/
def relay_signal (evt : String) (st : ServerState) (d : RelayData) :
    ServerState × List Emission :=
  if truthy d.session_id && truthy d.target_user_id &&
      (optKey d.session_id st.session_participants).isSome then
    let pm := (optKey d.session_id st.session_participants).getD []
    match getk pm (d.target_user_id.getD "") with
    | none => (st, [.toSelf "error" (.errorMsg "Target not found")])
    | some target =>
      (st, [.toRoom target.socket_id true evt (.rtc d.from_user_id d.body)])
  else (st, [.toSelf "error" (.errorMsg "Invalid signaling data")])

/-- `handle_webrtc_offer` (lines 1162-1178).  The connection context `c` is
in scope in the Python handler but never consulted. -/
def handle_webrtc_offer (st : ServerState) (_c : Conn) (d : RelayData) :
    ServerState × List Emission :=
  relay_signal "webrtc_offer" st d

/-- `handle_webrtc_answer` (lines 1180-1196). -/
def handle_webrtc_answer (st : ServerState) (_c : Conn) (d : RelayData) :
    ServerState × List Emission :=
  relay_signal "webrtc_answer" st d

/-- `handle_ice_candidate` (lines 1198-1214). -/
def handle_ice_candidate (st : ServerState) (_c : Conn) (d : RelayData) :
    ServerState × List Emission :=
  relay_signal "ice_candidate" st d

/-- `handle_chat_message` (lines 1216-1221): broadcast the payload verbatim
to the session room when the session id is truthy, otherwise silently
return.  The connection context is never consulted. -/
def handle_chat_message (st : ServerState) (_c : Conn) (d : ChatData) :
    ServerState × List Emission :=
  if truthy d.session_id then
    (st, [.toRoom (d.session_id.getD "") true "chat_message" (.chat d)])
  else (st, [])

/-- The operations that mutate or read the signaling state: a session start
over HTTP, the six socket events, and a scheduled cleanup timer firing. -/
inductive Op where
  | start (session_id lecture_id teacher_id teacher_name lecture_title
      started_at : String)
  | join (c : Conn) (t : String) (d : JoinData)
  | leave (c : Conn) (d : LeaveData)
  | offer (c : Conn) (d : RelayData)
  | answer (c : Conn) (d : RelayData)
  | ice (c : Conn) (d : RelayData)
  | chat (c : Conn) (d : ChatData)
  | fire (session_id : String) (delay : Nat)
deriving DecidableEq, Repr

/-- One step of the server: dispatch the operation to its handler.  A timer
may fire only if it is actually scheduled; firing consumes the timer and
runs `cleanup_session`. -/
def step (st : ServerState) : Op → ServerState × List Emission
  | .start sid lid tid tname title t =>
    (start_live_session st sid lid tid tname title t,
     [.toRoom "students" true "live_session_started"
        (.liveSessionStarted sid lid title tname
          ("/student/join_session/" ++ sid))])
  | .join c t d => handle_join_session st c t d
  | .leave c d => handle_leave_session st c d
  | .offer c d => handle_webrtc_offer st c d
  | .answer c d => handle_webrtc_answer st c d
  | .ice c d => handle_ice_candidate st c d
  | .chat c d => handle_chat_message st c d
  | .fire sid delay =>
    if (sid, delay) ∈ st.pending_cleanups then
      (cleanup_session sid
        { st with pending_cleanups := st.pending_cleanups.erase (sid, delay) },
       [])
    else (st, [])

/-- The empty initial state of the module-level dictionaries. -/
def initState : ServerState := ⟨[], [], []⟩

/-- States reachable from the initial state by any sequence of operations. -/
inductive Reachable : ServerState → Prop where
  | init : Reachable initState
  | tr {st : ServerState} (op : Op) : Reachable st → Reachable (step st op).1

/-- Run a trace of operations from the initial state, accumulating all
emissions in order. -/
def runOps (ops : List Op) : ServerState × List Emission :=
  ops.foldl (fun acc op =>
    let r := step acc.1 op
    (r.1, acc.2 ++ r.2)) (initState, [])

/-- Number of `session_ended` broadcasts to the room of `sid` in a list of
emissions. -/
def countSessionEnded (es : List Emission) (sid : String) : Nat :=
  (es.filter (fun e =>
    e = .toRoom sid true "session_ended" .sessionEnded)).length

/-- The emissions of a handler result that actually deliver a message to a
room or a socket id (everything except error / info replies to the sender). -/
def deliveries (es : List Emission) : List Emission :=
  es.filter (fun e =>
    match e with
    | .toRoom _ _ _ _ => true
    | .toSelf _ _ => false)

/-- Membership test derived from the participant tracker: does `uid`
currently hold a membership in session `sid`? -/
def isMember (st : ServerState) (sid uid : String) : Bool :=
  match getk st.session_participants sid with
  | none => false
  | some pm => (getk pm uid).isSome

/-- A teacher connection used in the concrete scenarios below. -/
def teacherConn : Conn := ⟨some ("T", "teacher", "Tname"), "sockT"⟩

/-- An unauthenticated connection (no `user_id` in the cookie session). -/
def anonConn : Conn := ⟨none, "sockAnon"⟩

/-- A trace in which session `S` empties twice before any cleanup timer
fires: start, join, leave (first `session_ended`), rejoin during the grace
period, leave again (second `session_ended`). -/
def rejoinTrace : List Op :=
  [.start "S" "L" "T" "Tname" "Title" "t0",
   .join teacherConn "t1" ⟨some "S"⟩,
   .leave teacherConn ⟨some "S", some "T"⟩,
   .join teacherConn "t2" ⟨some "S"⟩,
   .leave teacherConn ⟨some "S", some "T"⟩]

/-- A state whose session `S` has a single member `T` reachable from
`sockT`: the target state for the unauthenticated-relay scenario. -/
def oneMemberState : ServerState :=
  (runOps [.start "S" "L" "T" "Tname" "Title" "t0",
           .join teacherConn "t1" ⟨some "S"⟩]).1

section DictLemmas

variable {α : Type}

theorem getk_setk_self (m : List (String × α)) (k : String) (v : α) :
    getk (setk m k v) k = some v := by
  induction m with
  | nil => simp [setk, getk]
  | cons p rest ih =>
    by_cases h : p.1 = k
    · simp [setk, h, getk]
    · simp [setk, h, getk, ih]

theorem getk_setk_ne (m : List (String × α)) (k k' : String) (v : α)
    (h : k' ≠ k) : getk (setk m k v) k' = getk m k' := by
  have hk : ¬ (k = k') := fun hh => h hh.symm
  induction m with
  | nil => simp [setk, getk, hk]
  | cons p rest ih =>
    by_cases hp : p.1 = k
    · simp [setk, hp, getk, hk]
    · simp [setk, hp, getk, ih]

theorem length_setk_of_getk (m : List (String × α)) (k : String) (v v0 : α)
    (h : getk m k = some v0) : (setk m k v).length = m.length := by
  induction m with
  | nil => simp [getk] at h
  | cons p rest ih =>
    by_cases hp : p.1 = k
    · simp [setk, hp]
    · simp [getk, hp] at h
      simp [setk, hp, ih h]

theorem mem_setk (m : List (String × α)) (k : String) (v : α)
    (p : String × α) (h : p ∈ setk m k v) : p = (k, v) ∨ p ∈ m := by
  induction m with
  | nil => simpa [setk] using h
  | cons q rest ih =>
    by_cases hq : q.1 = k
    · simp only [setk, hq, if_true, List.mem_cons] at h
      rcases h with h | h
      · exact Or.inl h
      · exact Or.inr (List.mem_cons_of_mem _ h)
    · simp only [setk, hq, if_false, List.mem_cons] at h
      rcases h with h | h
      · exact Or.inr (by simp [h])
      · rcases ih h with h' | h'
        · exact Or.inl h'
        · exact Or.inr (List.mem_cons_of_mem _ h')

theorem hasKey_setk (m : List (String × α)) (k k' : String) (v : α)
    (h : HasKey (setk m k v) k') : k' = k ∨ HasKey m k' := by
  obtain ⟨w, hw⟩ := h
  rcases mem_setk m k v _ hw with h' | h'
  · exact Or.inl (congrArg Prod.fst h')
  · exact Or.inr ⟨w, h'⟩

theorem self_mem_setk (m : List (String × α)) (k : String) (v : α) :
    (k, v) ∈ setk m k v := by
  induction m with
  | nil => simp [setk]
  | cons q rest ih =>
    by_cases hq : q.1 = k
    · simp [setk, hq]
    · simp only [setk, hq, if_false, List.mem_cons]
      exact Or.inr ih

theorem mem_setk_of_mem (m : List (String × α)) (k : String) (v : α)
    (p : String × α) (hp : p ∈ m) (hne : p.1 ≠ k) : p ∈ setk m k v := by
  induction m with
  | nil => simp at hp
  | cons q rest ih =>
    rcases List.mem_cons.mp hp with h | h
    · subst h
      simp [setk, hne]
    · by_cases hq : q.1 = k
      · simp only [setk, hq, if_true, List.mem_cons]
        exact Or.inr h
      · simp only [setk, hq, if_false, List.mem_cons]
        exact Or.inr (ih h)

theorem hasKey_setk_of (m : List (String × α)) (k k' : String) (v : α)
    (h : HasKey m k') : HasKey (setk m k v) k' := by
  by_cases hk : k' = k
  · subst hk
    exact ⟨v, self_mem_setk m k' v⟩
  · obtain ⟨w, hw⟩ := h
    exact ⟨w, mem_setk_of_mem m k v (k', w) hw hk⟩

theorem not_hasKey_delk (m : List (String × α)) (k : String) :
    ¬ HasKey (delk m k) k := by
  rintro ⟨v, hv⟩
  have := List.of_mem_filter hv
  simp at this

theorem hasKey_delk (m : List (String × α)) (k k' : String)
    (h : HasKey (delk m k) k') : HasKey m k' := by
  obtain ⟨v, hv⟩ := h
  exact ⟨v, List.mem_of_mem_filter hv⟩

theorem mem_delk (m : List (String × α)) (k : String) (p : String × α)
    (h : p ∈ delk m k) : p ∈ m :=
  List.mem_of_mem_filter h

theorem getk_mem (m : List (String × α)) (k : String) (v : α)
    (h : getk m k = some v) : (k, v) ∈ m := by
  induction m with
  | nil => simp [getk] at h
  | cons p rest ih =>
    by_cases hp : p.1 = k
    · simp [getk, hp] at h
      subst h
      simp [← hp]
    · simp [getk, hp] at h
      exact List.mem_cons_of_mem _ (ih h)

theorem hasKey_of_getk (m : List (String × α)) (k : String) (v : α)
    (h : getk m k = some v) : HasKey m k :=
  ⟨v, getk_mem m k v h⟩

theorem hasKey_delk_of_ne (m : List (String × α)) (k k' : String)
    (h : k' ≠ k) (hm : HasKey m k') : HasKey (delk m k) k' := by
  obtain ⟨v, hv⟩ := hm
  exact ⟨v, List.mem_filter.mpr ⟨hv, by simpa using h⟩⟩

end DictLemmas

theorem pyOr_of_truthy (a b : Option String) (h : truthy a = true) :
    pyOr a b = a := by
  cases a with
  | none => simp [truthy] at h
  | some s =>
    have hs : ¬ (s = "") := by simpa [truthy] using h
    simp [pyOr, hs]

theorem relay_signal_fst (evt : String) (st : ServerState) (d : RelayData) :
    (relay_signal evt st d).1 = st := by
  unfold relay_signal
  split
  · dsimp only
    split <;> rfl
  · rfl

theorem handle_chat_message_fst (st : ServerState) (c : Conn) (d : ChatData) :
    (handle_chat_message st c d).1 = st := by
  unfold handle_chat_message
  split <;> rfl

theorem handle_join_session_active (st : ServerState) (c : Conn) (t : String)
    (d : JoinData) :
    (handle_join_session st c t d).1.active_sessions = st.active_sessions := by
  unfold handle_join_session
  split
  · rfl
  · dsimp only
    split <;> rfl

theorem handle_join_session_pending (st : ServerState) (c : Conn) (t : String)
    (d : JoinData) :
    (handle_join_session st c t d).1.pending_cleanups = st.pending_cleanups := by
  unfold handle_join_session
  split
  · rfl
  · dsimp only
    split <;> rfl

theorem handle_join_session_cases (st : ServerState) (c : Conn) (t : String)
    (d : JoinData) :
    (handle_join_session st c t d).1.session_participants =
      st.session_participants ∨
    ∃ sid rec pm2,
      getk st.active_sessions sid = some rec ∧
      (handle_join_session st c t d).1.session_participants =
        setk st.session_participants sid pm2 := by
  unfold handle_join_session
  split
  · exact Or.inl rfl
  · next x uid utype uname hauth =>
    dsimp only
    split
    · exact Or.inl rfl
    · next y rec heq =>
      cases hds : d.session_id with
      | none => rw [hds] at heq; simp [optKey] at heq
      | some s =>
        rw [hds] at heq
        simp only [optKey] at heq
        refine Or.inr ⟨s, rec,
          setk ((getk st.session_participants s).getD []) uid
            ⟨utype, uname, c.sid, t⟩, heq, ?_⟩
        rfl

theorem handle_leave_session_cases (st : ServerState) (c : Conn)
    (d : LeaveData) :
    handle_leave_session st c d = (st, []) ∨
    ∃ sid uid pm,
      getk st.session_participants sid = some pm ∧
      (handle_leave_session st c d).1.session_participants =
        setk st.session_participants sid (delk pm uid) ∧
      ((handle_leave_session st c d).1.active_sessions = st.active_sessions ∨
        ∃ rec, getk st.active_sessions sid = some rec ∧
          (handle_leave_session st c d).1.active_sessions =
            setk st.active_sessions sid { rec with status := "ended" }) ∧
      ((handle_leave_session st c d).1.pending_cleanups =
          st.pending_cleanups ∨
        (handle_leave_session st c d).1.pending_cleanups =
          st.pending_cleanups ++ [(sid, 5)]) := by
  unfold handle_leave_session
  dsimp only
  split
  · split
    · exact Or.inl rfl
    · next x pm hpm =>
      split
      · exact Or.inl rfl
      · split
        · split
          · next y rec hrec =>
            exact Or.inr ⟨_, _, pm, hpm, rfl,
              Or.inr ⟨rec, hrec, rfl⟩, Or.inr rfl⟩
          · exact Or.inr ⟨_, _, pm, hpm, rfl, Or.inl rfl, Or.inl rfl⟩
        · exact Or.inr ⟨_, _, pm, hpm, rfl, Or.inl rfl, Or.inl rfl⟩
  · exact Or.inl rfl

/-- C9: for the relay handlers `webrtc_offer`, `webrtc_answer` and
`ice_candidate`, the outcome (resulting state and full emission list,
including which target socket receives what message and the `from_user_id`
it carries) is determined entirely by the event payload and the current
tracker state, and is independent of the identity and session membership of
the sending connection: two arbitrary sender connections (authenticated or
not, members or not) submitting the same payload against the same state
produce identical results. -/
theorem C9_relay_sender_independent :
    ∀ (st : ServerState) (c c' : Conn) (d : RelayData),
      handle_webrtc_offer st c d = handle_webrtc_offer st c' d ∧
      handle_webrtc_answer st c d = handle_webrtc_answer st c' d ∧
      handle_ice_candidate st c d = handle_ice_candidate st c' d :=
  fun _ _ _ _ => ⟨rfl, rfl, rfl⟩

/-- C3 as stated is false: a `webrtc_offer` for the unregistered session
`S_missing` is answered with the generic `Invalid signaling data` error (the
same report as for missing payload fields), not with the distinct
session-not-found error (`Session not found`) that the `join_session`
handler uses; so no `SessionNotFound` error is reported. -/
theorem C3_counterexample :
    handle_webrtc_offer initState anonConn
        ⟨some "S_missing", some "T", some "U", some "o"⟩ =
      (initState,
       [Emission.toSelf "error" (Payload.errorMsg "Invalid signaling data")]) ∧
    Payload.errorMsg "Invalid signaling data" ≠
      Payload.errorMsg "Session not found" :=
  ⟨rfl, by decide⟩

/-- C3 amended: for every `webrtc_offer` event whose session id is not
registered in the participant tracker, an error is reported to the sender —
but it is the generic `Invalid signaling data` error rather than a distinct
session-not-found error — the state is unchanged, and no message is
delivered to anyone. -/
theorem C3_unregistered_session (st : ServerState) (c : Conn) (d : RelayData)
    (h : optKey d.session_id st.session_participants = none) :
    handle_webrtc_offer st c d =
      (st,
       [Emission.toSelf "error" (Payload.errorMsg "Invalid signaling data")]) ∧
    deliveries (handle_webrtc_offer st c d).2 = [] := by
  have hb : (truthy d.session_id && truthy d.target_user_id &&
      (optKey d.session_id st.session_participants).isSome) = false := by
    simp [h]
  have h1 : handle_webrtc_offer st c d =
      (st,
       [Emission.toSelf "error" (Payload.errorMsg "Invalid signaling data")]) := by
    unfold handle_webrtc_offer relay_signal
    simp [hb]
  exact ⟨h1, by rw [h1]; rfl⟩

/-- Witness for the amended C3 at the spec's concrete scenario
(session `S_missing` is absent from the empty tracker). -/
theorem C3_unregistered_session_w :
    handle_webrtc_offer initState anonConn
        ⟨some "S_missing", some "T2", some "U", some "o"⟩ =
      (initState,
       [Emission.toSelf "error" (Payload.errorMsg "Invalid signaling data")]) ∧
    deliveries (handle_webrtc_offer initState anonConn
        ⟨some "S_missing", some "T2", some "U", some "o"⟩).2 = [] :=
  C3_unregistered_session initState anonConn
    ⟨some "S_missing", some "T2", some "U", some "o"⟩ rfl

/-- C5: a relay event (`webrtc_offer`, `webrtc_answer` or `ice_candidate`)
naming a session that exists in the participant tracker but a target user
with no membership in it makes each handler report `Target not found` to the
sender only, leave the state unchanged, and deliver nothing to any
participant's transport handle. -/
theorem C5_target_not_found (st : ServerState) (c : Conn) (d : RelayData)
    (sid tgt : String) (pm : List (String × Participant))
    (hsid : d.session_id = some sid) (hsid' : sid ≠ "")
    (htgt : d.target_user_id = some tgt) (htgt' : tgt ≠ "")
    (hpm : getk st.session_participants sid = some pm)
    (hmiss : getk pm tgt = none) :
    handle_webrtc_offer st c d =
      (st, [Emission.toSelf "error" (Payload.errorMsg "Target not found")]) ∧
    handle_webrtc_answer st c d =
      (st, [Emission.toSelf "error" (Payload.errorMsg "Target not found")]) ∧
    handle_ice_candidate st c d =
      (st, [Emission.toSelf "error" (Payload.errorMsg "Target not found")]) ∧
    deliveries (handle_webrtc_offer st c d).2 = [] := by
  have hcore : ∀ evt, relay_signal evt st d =
      (st, [Emission.toSelf "error" (Payload.errorMsg "Target not found")]) := by
    intro evt
    unfold relay_signal
    simp [hsid, htgt, truthy, hsid', htgt', optKey, hpm, hmiss]
  refine ⟨hcore _, hcore _, hcore _, ?_⟩
  show deliveries (relay_signal "webrtc_offer" st d).2 = []
  rw [hcore]
  rfl

/-- Witness for C5: in the one-member session `S` (only `T` joined), a
`webrtc_offer` targeted at the absent user `U2` is answered with
`Target not found` and delivers nothing. -/
theorem C5_target_not_found_w :
    handle_webrtc_offer oneMemberState anonConn
        ⟨some "S", some "U2", some "T", some "o"⟩ =
      (oneMemberState,
       [Emission.toSelf "error" (Payload.errorMsg "Target not found")]) ∧
    handle_webrtc_answer oneMemberState anonConn
        ⟨some "S", some "U2", some "T", some "o"⟩ =
      (oneMemberState,
       [Emission.toSelf "error" (Payload.errorMsg "Target not found")]) ∧
    handle_ice_candidate oneMemberState anonConn
        ⟨some "S", some "U2", some "T", some "o"⟩ =
      (oneMemberState,
       [Emission.toSelf "error" (Payload.errorMsg "Target not found")]) ∧
    deliveries (handle_webrtc_offer oneMemberState anonConn
        ⟨some "S", some "U2", some "T", some "o"⟩).2 = [] :=
  C5_target_not_found oneMemberState anonConn
    ⟨some "S", some "U2", some "T", some "o"⟩ "S" "U2"
    [("T", ⟨"teacher", "Tname", "sockT", "t1"⟩)]
    rfl (by decide) rfl (by decide) rfl rfl

/-- C6: a second `join_session` by a user already holding a membership in a
registered session replaces the membership record in place — including its
transport handle, which becomes the new connection's socket id — instead of
adding a second entry: the session's participant count after the re-join
equals the count before it. -/
theorem C6_rejoin_overwrites (st : ServerState) (c : Conn) (t : String)
    (d : JoinData) (sid uid utype uname : String) (rec : SessionRec)
    (pm : List (String × Participant)) (old : Participant)
    (hauth : c.auth = some (uid, utype, uname))
    (hsid : d.session_id = some sid)
    (hreg : getk st.active_sessions sid = some rec)
    (hpm : getk st.session_participants sid = some pm)
    (hold : getk pm uid = some old) :
    getk (handle_join_session st c t d).1.session_participants sid =
      some (setk pm uid ⟨utype, uname, c.sid, t⟩) ∧
    getk (setk pm uid ⟨utype, uname, c.sid, t⟩) uid =
      some ⟨utype, uname, c.sid, t⟩ ∧
    (setk pm uid ⟨utype, uname, c.sid, t⟩).length = pm.length := by
  have h1 : (handle_join_session st c t d).1.session_participants =
      setk st.session_participants sid (setk pm uid ⟨utype, uname, c.sid, t⟩) := by
    unfold handle_join_session
    simp [hauth, hsid, optKey, hreg, hpm]
  refine ⟨?_, getk_setk_self pm uid _, length_setk_of_getk pm uid _ old hold⟩
  rw [h1]
  exact getk_setk_self st.session_participants sid _

/-- Witness for C6: the teacher `T` re-joins the one-member session `S`
from a new connection; the membership record is replaced (new socket id
`sockT2`, new join time `t2`) and the participant count stays 1. -/
theorem C6_rejoin_overwrites_w :
    getk (handle_join_session oneMemberState
        ⟨some ("T", "teacher", "Tname"), "sockT2"⟩ "t2"
        ⟨some "S"⟩).1.session_participants "S" =
      some [("T", ⟨"teacher", "Tname", "sockT2", "t2"⟩)] ∧
    getk [("T", (⟨"teacher", "Tname", "sockT2", "t2"⟩ : Participant))] "T" =
      some ⟨"teacher", "Tname", "sockT2", "t2"⟩ ∧
    ([("T", (⟨"teacher", "Tname", "sockT2", "t2"⟩ : Participant))]).length =
      ([("T", (⟨"teacher", "Tname", "sockT", "t1"⟩ : Participant))]).length :=
  C6_rejoin_overwrites oneMemberState
    ⟨some ("T", "teacher", "Tname"), "sockT2"⟩ "t2" ⟨some "S"⟩
    "S" "T" "teacher" "Tname"
    ⟨"L", "T", "Tname", "Title", "t0", "active", [], []⟩
    [("T", ⟨"teacher", "Tname", "sockT", "t1"⟩)]
    ⟨"teacher", "Tname", "sockT", "t1"⟩
    rfl rfl rfl rfl rfl

/-- C7: a `leave_session` event for a session and user with no current
membership (whether the session is unknown to the tracker or the user is
absent from it) leaves the whole state — participant tracker, room registry
and pending cleanups — unchanged and emits nothing, in particular no
`user_left` and no `session_ended` broadcast. -/
theorem C7_leave_nonmember_noop (st : ServerState) (c : Conn) (d : LeaveData)
    (sid uid : String)
    (hsid : d.session_id = some sid)
    (huid : pyOr d.user_id (authUserId c) = some uid)
    (hmiss : isMember st sid uid = false) :
    handle_leave_session st c d = (st, []) := by
  unfold handle_leave_session
  rw [hsid, huid]
  by_cases h1 : (truthy (some sid) && truthy (some uid)) = true
  · rw [if_pos h1]
    dsimp only [Option.getD_some]
    cases hpm : getk st.session_participants sid with
    | none => rfl
    | some pm =>
      have : getk pm uid = none := by
        have := hmiss
        unfold isMember at this
        rw [hpm] at this
        simpa using this
      dsimp only
      rw [this]
  · rw [if_neg h1]

/-- Witness for C7: a `leave_session` for the unknown user `Ghost` in the
one-member session `S` changes nothing and emits nothing. -/
theorem C7_leave_nonmember_noop_w :
    handle_leave_session oneMemberState anonConn ⟨some "S", some "Ghost"⟩ =
      (oneMemberState, []) :=
  C7_leave_nonmember_noop oneMemberState anonConn ⟨some "S", some "Ghost"⟩
    "S" "Ghost" rfl rfl rfl

/-- C4 as stated is false: a `webrtc_offer` submitted from a connection with
no established identity (`anonConn.auth = none`) against the one-member
session `S` is not rejected: no error is reported and the offer is delivered
to the member's transport handle `sockT`. -/
theorem C4_counterexample :
    anonConn.auth = none ∧
    handle_webrtc_offer oneMemberState anonConn
        ⟨some "S", some "T", some "U", some "o"⟩ =
      (oneMemberState,
       [Emission.toRoom "sockT" true "webrtc_offer"
          (Payload.rtc (some "U") (some "o"))]) :=
  ⟨rfl, rfl⟩

/-- C4 amended: only `join_session` enforces an identity.  A `join_session`
from a connection without identity reports `Authentication required` and has
no other effect; the three relay handlers and `chat_message` never consult
the sender's identity (equal outcomes for any two connection contexts); and
`leave_session` ignores the sender's identity whenever the payload carries a
truthy `user_id` (and is a silent no-op, with no error report, when neither
the payload nor the cookie session yields one). -/
theorem C4_only_join_checks_identity :
    (∀ (st : ServerState) (c : Conn) (t : String) (d : JoinData),
        c.auth = none →
        handle_join_session st c t d =
          (st, [Emission.toSelf "error"
                  (Payload.errorMsg "Authentication required")])) ∧
    (∀ (st : ServerState) (c c' : Conn) (d : RelayData),
        handle_webrtc_offer st c d = handle_webrtc_offer st c' d ∧
        handle_webrtc_answer st c d = handle_webrtc_answer st c' d ∧
        handle_ice_candidate st c d = handle_ice_candidate st c' d) ∧
    (∀ (st : ServerState) (c c' : Conn) (d : ChatData),
        handle_chat_message st c d = handle_chat_message st c' d) ∧
    (∀ (st : ServerState) (c c' : Conn) (d : LeaveData),
        truthy d.user_id = true →
        handle_leave_session st c d = handle_leave_session st c' d) ∧
    (∀ (st : ServerState) (c : Conn) (d : LeaveData),
        truthy (pyOr d.user_id (authUserId c)) = false →
        handle_leave_session st c d = (st, [])) := by
  refine ⟨?_, fun _ _ _ _ => ⟨rfl, rfl, rfl⟩, fun _ _ _ _ => rfl, ?_, ?_⟩
  · intro st c t d h
    unfold handle_join_session
    rw [h]
  · intro st c c' d h
    unfold handle_leave_session
    rw [pyOr_of_truthy d.user_id (authUserId c) h,
        pyOr_of_truthy d.user_id (authUserId c') h]
  · intro st c d h
    unfold handle_leave_session
    dsimp only
    rw [h]
    simp

/-- Witness for the amended C4 at concrete inputs: an identity-less join is
rejected with no other effect; the same offer from an identity-less and an
authenticated connection coincide; equal chat outcomes; a payload-identified
leave is connection-independent; and an identity-less leave with no payload
user id is a silent no-op. -/
theorem C4_only_join_checks_identity_w :
    handle_join_session oneMemberState anonConn "t9" ⟨some "S"⟩ =
      (oneMemberState,
       [Emission.toSelf "error" (Payload.errorMsg "Authentication required")]) ∧
    handle_webrtc_offer oneMemberState anonConn
        ⟨some "S", some "T", some "U", some "o"⟩ =
      handle_webrtc_offer oneMemberState teacherConn
        ⟨some "S", some "T", some "U", some "o"⟩ ∧
    handle_chat_message oneMemberState anonConn ⟨some "S", "hi"⟩ =
      handle_chat_message oneMemberState teacherConn ⟨some "S", "hi"⟩ ∧
    handle_leave_session oneMemberState anonConn ⟨some "S", some "T"⟩ =
      handle_leave_session oneMemberState teacherConn ⟨some "S", some "T"⟩ ∧
    handle_leave_session oneMemberState anonConn ⟨some "S", none⟩ =
      (oneMemberState, []) :=
  ⟨C4_only_join_checks_identity.1 oneMemberState anonConn "t9" ⟨some "S"⟩ rfl,
   (C4_only_join_checks_identity.2.1 oneMemberState anonConn teacherConn
      ⟨some "S", some "T", some "U", some "o"⟩).1,
   C4_only_join_checks_identity.2.2.1 oneMemberState anonConn teacherConn
      ⟨some "S", "hi"⟩,
   C4_only_join_checks_identity.2.2.2.1 oneMemberState anonConn teacherConn
      ⟨some "S", some "T"⟩ rfl,
   C4_only_join_checks_identity.2.2.2.2 oneMemberState anonConn
      ⟨some "S", none⟩ rfl⟩

/-- C1 as stated is false: in `rejoinTrace`, session `S` empties twice
before any cleanup timer fires (the teacher leaves, rejoins during the
5-second grace period, and leaves again), and the trace's emissions contain
two `session_ended` broadcasts to the room of `S` — the broadcast is not
emitted exactly once over the lifetime of `S`. -/
theorem C1_counterexample :
    countSessionEnded (runOps rejoinTrace).2 "S" = 2 := by rfl

theorem handle_leave_last_run (st : ServerState) (c : Conn) (d : LeaveData)
    (sid uid : String) (pm : List (String × Participant)) (p : Participant)
    (rec : SessionRec)
    (hsid : d.session_id = some sid) (hsid' : sid ≠ "")
    (huid : pyOr d.user_id (authUserId c) = some uid) (huid' : uid ≠ "")
    (hpm : getk st.session_participants sid = some pm)
    (hmem : getk pm uid = some p)
    (hlast : (delk pm uid).length = 0)
    (hreg : getk st.active_sessions sid = some rec) :
    handle_leave_session st c d =
      ({ st with
         active_sessions := setk st.active_sessions sid
           { rec with status := "ended" },
         session_participants := setk st.session_participants sid (delk pm uid),
         pending_cleanups := st.pending_cleanups ++ [(sid, 5)] },
       [Emission.toRoom sid true "user_left" (Payload.userLeft uid 0),
        Emission.toRoom sid true "session_ended" Payload.sessionEnded]) := by
  unfold handle_leave_session
  rw [hsid, huid]
  have h1 : (truthy (some sid) && truthy (some uid)) = true := by
    simp [truthy, hsid', huid']
  rw [if_pos h1]
  dsimp only [Option.getD_some]
  rw [hpm]
  dsimp only
  rw [hmem]
  dsimp only
  rw [if_pos hlast, hlast, hreg]

/-- C1 amended: when a `leave_session` event removes the last remaining
membership of a session that is present in the room registry, the session's
status transitions to `ended` and exactly one `session_ended` broadcast to
the session's room is emitted by that event — but this transition and
broadcast can recur for the same session if a participant rejoins before the
deferred cleanup fires. -/
theorem C1_last_leave_ends (st : ServerState) (c : Conn) (d : LeaveData)
    (sid uid : String) (pm : List (String × Participant)) (p : Participant)
    (rec : SessionRec)
    (hsid : d.session_id = some sid) (hsid' : sid ≠ "")
    (huid : pyOr d.user_id (authUserId c) = some uid) (huid' : uid ≠ "")
    (hpm : getk st.session_participants sid = some pm)
    (hmem : getk pm uid = some p)
    (hlast : (delk pm uid).length = 0)
    (hreg : getk st.active_sessions sid = some rec) :
    getk (handle_leave_session st c d).1.active_sessions sid =
      some { rec with status := "ended" } ∧
    countSessionEnded (handle_leave_session st c d).2 sid = 1 := by
  rw [handle_leave_last_run st c d sid uid pm p rec hsid hsid' huid huid'
      hpm hmem hlast hreg]
  constructor
  · exact getk_setk_self st.active_sessions sid _
  · unfold countSessionEnded
    simp [List.filter]

/-- Witness for the amended C1: the teacher, sole member of session `S`,
leaves; the registry entry for `S` turns to status `ended` and exactly one
`session_ended` broadcast is emitted by the event. -/
theorem C1_last_leave_ends_w :
    getk (handle_leave_session oneMemberState teacherConn
        ⟨some "S", some "T"⟩).1.active_sessions "S" =
      some ⟨"L", "T", "Tname", "Title", "t0", "ended", [], []⟩ ∧
    countSessionEnded (handle_leave_session oneMemberState teacherConn
        ⟨some "S", some "T"⟩).2 "S" = 1 :=
  C1_last_leave_ends oneMemberState teacherConn ⟨some "S", some "T"⟩
    "S" "T" [("T", ⟨"teacher", "Tname", "sockT", "t1"⟩)]
    ⟨"teacher", "Tname", "sockT", "t1"⟩
    ⟨"L", "T", "Tname", "Title", "t0", "active", [], []⟩
    rfl (by decide) rfl (by decide) rfl rfl rfl rfl

/-- C2: (1) whenever a `leave_session` event removes a registered session's
last membership (the `ended` transition), a cleanup for that session with
the fixed 5-second delay is scheduled; (2) no operation other than the
firing of that very timer removes a scheduled cleanup — there is no
cancellation, in particular a new `join_session` does not cancel it; (3)
when a scheduled cleanup fires, the session's room-registry entry and its
participant-tracker entry are both removed, whatever the tracker holds at
that moment — in particular even if participants rejoined after the `ended`
transition. -/
theorem C2_cleanup_unconditional :
    (∀ (st : ServerState) (c : Conn) (d : LeaveData) (sid uid : String)
        (pm : List (String × Participant)) (p : Participant)
        (rec : SessionRec),
        d.session_id = some sid → sid ≠ "" →
        pyOr d.user_id (authUserId c) = some uid → uid ≠ "" →
        getk st.session_participants sid = some pm →
        getk pm uid = some p → (delk pm uid).length = 0 →
        getk st.active_sessions sid = some rec →
        (sid, 5) ∈ (handle_leave_session st c d).1.pending_cleanups) ∧
    (∀ (st : ServerState) (op : Op) (sid : String) (delay : Nat),
        (sid, delay) ∈ st.pending_cleanups → op ≠ Op.fire sid delay →
        (sid, delay) ∈ (step st op).1.pending_cleanups) ∧
    (∀ (st : ServerState) (sid : String) (delay : Nat),
        (sid, delay) ∈ st.pending_cleanups →
        ¬ HasKey (step st (Op.fire sid delay)).1.active_sessions sid ∧
        ¬ HasKey (step st (Op.fire sid delay)).1.session_participants sid) := by
  refine ⟨?_, ?_, ?_⟩
  · intro st c d sid uid pm p rec hsid hsid' huid huid' hpm hmem hlast hreg
    rw [handle_leave_last_run st c d sid uid pm p rec hsid hsid' huid huid'
        hpm hmem hlast hreg]
    exact List.mem_append_right _ (List.mem_singleton.mpr rfl)
  · intro st op sid delay h hop
    cases op with
    | start s lid tid tname title t => exact h
    | join c t d =>
      show (sid, delay) ∈ (handle_join_session st c t d).1.pending_cleanups
      rw [handle_join_session_pending]
      exact h
    | leave c d =>
      show (sid, delay) ∈ (handle_leave_session st c d).1.pending_cleanups
      rcases handle_leave_session_cases st c d with
        hcase | ⟨s, u, pm, _, _, _, hpend⟩
      · rw [hcase]; exact h
      · rcases hpend with hp | hp
        · rw [hp]; exact h
        · rw [hp]; exact List.mem_append_left _ h
    | offer c d =>
      show (sid, delay) ∈ (handle_webrtc_offer st c d).1.pending_cleanups
      rw [show (handle_webrtc_offer st c d).1 = st from relay_signal_fst _ _ _]
      exact h
    | answer c d =>
      show (sid, delay) ∈ (handle_webrtc_answer st c d).1.pending_cleanups
      rw [show (handle_webrtc_answer st c d).1 = st from relay_signal_fst _ _ _]
      exact h
    | ice c d =>
      show (sid, delay) ∈ (handle_ice_candidate st c d).1.pending_cleanups
      rw [show (handle_ice_candidate st c d).1 = st from relay_signal_fst _ _ _]
      exact h
    | chat c d =>
      show (sid, delay) ∈ (handle_chat_message st c d).1.pending_cleanups
      rw [show (handle_chat_message st c d).1 = st from
        handle_chat_message_fst _ _ _]
      exact h
    | fire s dl =>
      show (sid, delay) ∈
        (if (s, dl) ∈ st.pending_cleanups then
          (cleanup_session s
            { st with pending_cleanups := st.pending_cleanups.erase (s, dl) },
           ([] : List Emission))
         else (st, [])).1.pending_cleanups
      by_cases hin : (s, dl) ∈ st.pending_cleanups
      · rw [if_pos hin]
        have hne : (sid, delay) ≠ (s, dl) := by
          intro he
          injection he with he1 he2
          subst he1; subst he2
          exact hop rfl
        exact (List.mem_erase_of_ne hne).mpr h
      · rw [if_neg hin]
        exact h
  · intro st sid delay h
    have hs : step st (Op.fire sid delay) =
        (cleanup_session sid
          { st with pending_cleanups := st.pending_cleanups.erase (sid, delay) },
         []) := by
      show (if (sid, delay) ∈ st.pending_cleanups then
          (cleanup_session sid
            { st with
              pending_cleanups := st.pending_cleanups.erase (sid, delay) },
           ([] : List Emission))
         else (st, [])) = _
      rw [if_pos h]
    rw [hs]
    exact ⟨not_hasKey_delk _ _, not_hasKey_delk _ _⟩

/-- Witness for C2 at concrete inputs: the last leave in the one-member
session `S` schedules `(S, 5)`; a later `join_session` (a rejoin during the
grace period) does not remove the scheduled entry; and the timer firing in a
state where `S` has a member again still deletes both the registry entry and
the tracker entry of `S`. -/
theorem C2_cleanup_unconditional_w :
    ("S", 5) ∈ (handle_leave_session oneMemberState teacherConn
        ⟨some "S", some "T"⟩).1.pending_cleanups ∧
    ("S", 5) ∈ (step (runOps [.start "S" "L" "T" "Tname" "Title" "t0",
        .join teacherConn "t1" ⟨some "S"⟩,
        .leave teacherConn ⟨some "S", some "T"⟩]).1
        (.join teacherConn "t2" ⟨some "S"⟩)).1.pending_cleanups ∧
    (¬ HasKey (step (runOps [.start "S" "L" "T" "Tname" "Title" "t0",
        .join teacherConn "t1" ⟨some "S"⟩,
        .leave teacherConn ⟨some "S", some "T"⟩,
        .join teacherConn "t2" ⟨some "S"⟩]).1
        (.fire "S" 5)).1.active_sessions "S" ∧
      ¬ HasKey (step (runOps [.start "S" "L" "T" "Tname" "Title" "t0",
        .join teacherConn "t1" ⟨some "S"⟩,
        .leave teacherConn ⟨some "S", some "T"⟩,
        .join teacherConn "t2" ⟨some "S"⟩]).1
        (.fire "S" 5)).1.session_participants "S") :=
  ⟨C2_cleanup_unconditional.1 oneMemberState teacherConn ⟨some "S", some "T"⟩
      "S" "T" [("T", ⟨"teacher", "Tname", "sockT", "t1"⟩)]
      ⟨"teacher", "Tname", "sockT", "t1"⟩
      ⟨"L", "T", "Tname", "Title", "t0", "active", [], []⟩
      rfl (by decide) rfl (by decide) rfl rfl rfl rfl,
   C2_cleanup_unconditional.2.1
      (runOps [.start "S" "L" "T" "Tname" "Title" "t0",
        .join teacherConn "t1" ⟨some "S"⟩,
        .leave teacherConn ⟨some "S", some "T"⟩]).1
      (.join teacherConn "t2" ⟨some "S"⟩) "S" 5 (by decide) (by decide),
   C2_cleanup_unconditional.2.2
      (runOps [.start "S" "L" "T" "Tname" "Title" "t0",
        .join teacherConn "t1" ⟨some "S"⟩,
        .leave teacherConn ⟨some "S", some "T"⟩,
        .join teacherConn "t2" ⟨some "S"⟩]).1
      "S" 5 (by decide)⟩

theorem tracker_subset_step (st : ServerState) (op : Op)
    (ih : ∀ k, HasKey st.session_participants k → HasKey st.active_sessions k) :
    ∀ k, HasKey (step st op).1.session_participants k →
      HasKey (step st op).1.active_sessions k := by
  intro k hk
  cases op with
  | start sid lid tid tname title t =>
    exact hasKey_setk_of _ _ _ _ (ih k hk)
  | join c t d =>
    show HasKey (handle_join_session st c t d).1.active_sessions k
    rw [handle_join_session_active]
    have hk' : HasKey (handle_join_session st c t d).1.session_participants k :=
      hk
    rcases handle_join_session_cases st c t d with
      hcase | ⟨s, rec, pm2, hreg, hcase⟩
    · rw [hcase] at hk'
      exact ih k hk'
    · rw [hcase] at hk'
      rcases hasKey_setk _ _ _ _ hk' with he | hm
      · subst he
        exact hasKey_of_getk _ _ _ hreg
      · exact ih k hm
  | leave c d =>
    show HasKey (handle_leave_session st c d).1.active_sessions k
    have hk' : HasKey (handle_leave_session st c d).1.session_participants k :=
      hk
    rcases handle_leave_session_cases st c d with
      hcase | ⟨s, u, pm, hpm, htr, hact, _⟩
    · rw [hcase] at hk' ⊢
      exact ih k hk'
    · rw [htr] at hk'
      have hks : HasKey st.active_sessions k := by
        rcases hasKey_setk _ _ _ _ hk' with he | hm
        · subst he
          exact ih _ (hasKey_of_getk _ _ _ hpm)
        · exact ih k hm
      rcases hact with ha | ⟨rec, hreg, ha⟩
      · rw [ha]
        exact hks
      · rw [ha]
        exact hasKey_setk_of _ _ _ _ hks
  | offer c d =>
    show HasKey (handle_webrtc_offer st c d).1.active_sessions k
    have hk' : HasKey (handle_webrtc_offer st c d).1.session_participants k :=
      hk
    rw [show (handle_webrtc_offer st c d).1 = st from
      relay_signal_fst _ _ _] at hk' ⊢
    exact ih k hk'
  | answer c d =>
    show HasKey (handle_webrtc_answer st c d).1.active_sessions k
    have hk' : HasKey (handle_webrtc_answer st c d).1.session_participants k :=
      hk
    rw [show (handle_webrtc_answer st c d).1 = st from
      relay_signal_fst _ _ _] at hk' ⊢
    exact ih k hk'
  | ice c d =>
    show HasKey (handle_ice_candidate st c d).1.active_sessions k
    have hk' : HasKey (handle_ice_candidate st c d).1.session_participants k :=
      hk
    rw [show (handle_ice_candidate st c d).1 = st from
      relay_signal_fst _ _ _] at hk' ⊢
    exact ih k hk'
  | chat c d =>
    show HasKey (handle_chat_message st c d).1.active_sessions k
    have hk' : HasKey (handle_chat_message st c d).1.session_participants k :=
      hk
    rw [show (handle_chat_message st c d).1 = st from
      handle_chat_message_fst _ _ _] at hk' ⊢
    exact ih k hk'
  | fire s dl =>
    by_cases hin : (s, dl) ∈ st.pending_cleanups
    · have hs : step st (Op.fire s dl) =
          (cleanup_session s
            { st with pending_cleanups := st.pending_cleanups.erase (s, dl) },
           []) := by
        show (if (s, dl) ∈ st.pending_cleanups then
            (cleanup_session s
              { st with pending_cleanups := st.pending_cleanups.erase (s, dl) },
             ([] : List Emission))
           else (st, [])) = _
        rw [if_pos hin]
      rw [hs] at hk ⊢
      have hk2 : HasKey (delk st.session_participants s) k := hk
      have hne : k ≠ s := fun he => not_hasKey_delk _ _ (he ▸ hk2)
      exact hasKey_delk_of_ne _ _ _ hne (ih k (hasKey_delk _ _ _ hk2))
    · have hs : step st (Op.fire s dl) = (st, []) := by
        show (if (s, dl) ∈ st.pending_cleanups then
            (cleanup_session s
              { st with pending_cleanups := st.pending_cleanups.erase (s, dl) },
             ([] : List Emission))
           else (st, [])) = _
        rw [if_neg hin]
      rw [hs] at hk ⊢
      exact ih k hk

/-- C8: in every state reachable by any sequence of session starts, socket
events and cleanup firings, every session id holding a participant-tracker
entry is also present in the room registry; and `cleanup_session` removes
the registry entry and the tracker entry of its session together (whatever
the state). -/
theorem C8_tracker_subset_registry :
    (∀ st, Reachable st → ∀ sid, HasKey st.session_participants sid →
        HasKey st.active_sessions sid) ∧
    (∀ (st : ServerState) (sid : String),
        ¬ HasKey (cleanup_session sid st).active_sessions sid ∧
        ¬ HasKey (cleanup_session sid st).session_participants sid) := by
  constructor
  · intro st hst
    induction hst with
    | init =>
      intro sid h
      obtain ⟨v, hv⟩ := h
      simp [initState] at hv
    | tr op hst ih => exact tracker_subset_step _ op ih
  · intro st sid
    exact ⟨not_hasKey_delk _ _, not_hasKey_delk _ _⟩

/-- Witness for C8: in the reachable one-member state, session `S` has a
tracker entry and is indeed in the registry; and cleaning `S` up removes
both entries. -/
theorem C8_tracker_subset_registry_w :
    HasKey oneMemberState.active_sessions "S" ∧
    ¬ HasKey (cleanup_session "S" oneMemberState).active_sessions "S" ∧
    ¬ HasKey (cleanup_session "S" oneMemberState).session_participants "S" :=
  ⟨C8_tracker_subset_registry.1 oneMemberState
      (Reachable.tr (.join teacherConn "t1" ⟨some "S"⟩)
        (Reachable.tr (.start "S" "L" "T" "Tname" "Title" "t0")
          Reachable.init))
      "S" ⟨[("T", ⟨"teacher", "Tname", "sockT", "t1"⟩)], by decide⟩,
   (C8_tracker_subset_registry.2 oneMemberState "S").1,
   (C8_tracker_subset_registry.2 oneMemberState "S").2⟩

theorem participants_list_step (st : ServerState) (op : Op)
    (ih : ∀ p, p ∈ st.active_sessions →
      (p : String × SessionRec).2.participants = []) :
    ∀ p, p ∈ (step st op).1.active_sessions → p.2.participants = [] := by
  intro p hp
  cases op with
  | start sid lid tid tname title t =>
    have hp' : p ∈ setk st.active_sessions sid
        ⟨lid, tid, tname, title, t, "active", [], []⟩ := hp
    rcases mem_setk _ _ _ _ hp' with h | h
    · rw [h]
    · exact ih p h
  | join c t d =>
    have hp' : p ∈ (handle_join_session st c t d).1.active_sessions := hp
    rw [handle_join_session_active] at hp'
    exact ih p hp'
  | leave c d =>
    have hp' : p ∈ (handle_leave_session st c d).1.active_sessions := hp
    rcases handle_leave_session_cases st c d with
      hcase | ⟨s, u, pm, hpm, htr, hact, _⟩
    · rw [hcase] at hp'
      exact ih p hp'
    · rcases hact with ha | ⟨rec, hreg, ha⟩
      · rw [ha] at hp'
        exact ih p hp'
      · rw [ha] at hp'
        rcases mem_setk _ _ _ _ hp' with h | h
        · rw [h]
          exact ih (s, rec) (getk_mem _ _ _ hreg)
        · exact ih p h
  | offer c d =>
    have hp' : p ∈ (handle_webrtc_offer st c d).1.active_sessions := hp
    rw [show (handle_webrtc_offer st c d).1 = st from
      relay_signal_fst _ _ _] at hp'
    exact ih p hp'
  | answer c d =>
    have hp' : p ∈ (handle_webrtc_answer st c d).1.active_sessions := hp
    rw [show (handle_webrtc_answer st c d).1 = st from
      relay_signal_fst _ _ _] at hp'
    exact ih p hp'
  | ice c d =>
    have hp' : p ∈ (handle_ice_candidate st c d).1.active_sessions := hp
    rw [show (handle_ice_candidate st c d).1 = st from
      relay_signal_fst _ _ _] at hp'
    exact ih p hp'
  | chat c d =>
    have hp' : p ∈ (handle_chat_message st c d).1.active_sessions := hp
    rw [show (handle_chat_message st c d).1 = st from
      handle_chat_message_fst _ _ _] at hp'
    exact ih p hp'
  | fire s dl =>
    by_cases hin : (s, dl) ∈ st.pending_cleanups
    · have hs : step st (Op.fire s dl) =
          (cleanup_session s
            { st with pending_cleanups := st.pending_cleanups.erase (s, dl) },
           []) := by
        show (if (s, dl) ∈ st.pending_cleanups then
            (cleanup_session s
              { st with pending_cleanups := st.pending_cleanups.erase (s, dl) },
             ([] : List Emission))
           else (st, [])) = _
        rw [if_pos hin]
      rw [hs] at hp
      exact ih p (mem_delk _ _ _ hp)
    · have hs : step st (Op.fire s dl) = (st, []) := by
        show (if (s, dl) ∈ st.pending_cleanups then
            (cleanup_session s
              { st with pending_cleanups := st.pending_cleanups.erase (s, dl) },
             ([] : List Emission))
           else (st, [])) = _
        rw [if_neg hin]
      rw [hs] at hp
      exact ih p hp

/-- C10: the `participants` list stored inside a room-registry entry is
initialized empty by `start_live_session` and never mutated by any
subsequent operation (join, leave, relay, broadcast, cleanup): in every
reachable state, every registry entry still carries the empty list — the
participant counts the handlers emit are derived from the separate
`session_participants` tracker instead. -/
theorem C10_registry_participants_always_empty :
    ∀ st, Reachable st → ∀ sid rec,
      getk st.active_sessions sid = some rec →
      rec.participants = ([] : List Participant) := by
  have key : ∀ st, Reachable st → ∀ p, p ∈ st.active_sessions →
      (p : String × SessionRec).2.participants = [] := by
    intro st hst
    induction hst with
    | init =>
      intro p hp
      simp [initState] at hp
    | tr op hst ih => exact participants_list_step _ op ih
  intro st hst sid rec hreg
  exact key st hst (sid, rec) (getk_mem _ _ _ hreg)

/-- Witness for C10: right after `start_live_session` creates session `S`,
its registry record carries the empty `participants` list. -/
theorem C10_registry_participants_always_empty_w :
    (⟨"L", "T", "Tname", "Title", "t0", "active", [], []⟩ :
      SessionRec).participants = [] :=
  C10_registry_participants_always_empty
    (step initState (Op.start "S" "L" "T" "Tname" "Title" "t0")).1
    (Reachable.tr _ Reachable.init) "S"
    ⟨"L", "T", "Tname", "Title", "t0", "active", [], []⟩ rfl

end DigiKul
